import Mathlib

/-!
Verification of the connection-lifecycle core of a TLS-terminating TCP echo
server. All definitions are shallow embeddings of `src/src/tcp_server.cxx`:
the client-id registry (`get_spare_id`, the locked erase in `shutdown_socket`),
the per-session state machine (`attempt_handshake`, `read_request`,
`process_request`, `shutdown_socket`), the accept loop with admission control
(`listen`, `connection_timeout`), and the server start/shutdown orchestration
(`start`, `shutdown`). Asynchronous completion handlers become step functions
over explicit event traces; the nondeterminism of the reactor pool becomes
quantification over traces.
-/

set_option autoImplicit false

/-- A byte of application data, modelled as a natural number. -/
abbrev Byte := Nat

/-- Modelled from the spec: the constant `NULL_BYTE` used at
`tcp_server.cxx:197` is declared in a project header that is not present
under `src/`; per its name and the buffer pre-fill it denotes, it is the NUL
byte, value 0. -/
def NULL_BYTE : Byte := 0

/-! ### ClientRegistry: id sampling (`get_spare_id`, lines 236-248) -/

/-- `tcp_server::get_spare_id` (lines 236-248): under the registry lock,
repeatedly draw a candidate and retry while it collides with
`m_active_client_ids`; return the first non-colliding candidate. The random
generator is modelled as the list `cands` of successive draws; `dflt` is
returned only when every candidate collides (the C++ loop would keep
drawing, so theorems assume some candidate is fresh). -/
def get_spare_id : List Nat → Finset Nat → Nat → Nat
  | [], _, dflt => dflt
  | c :: rest, active, dflt =>
      if c ∈ active then get_spare_id rest active dflt else c

/-! ### ClientRegistry: release (`shutdown_socket` lines 109-121)

The locked section of `tcp_server::shutdown_socket` asserts that the id is a
member of `m_active_client_ids`, erases it, and the function then decrements
`m_active_connections`. A failed assertion is modelled as `none`. -/

/-- The registry/counter effect of `tcp_server::shutdown_socket`
(lines 109-121): `assert(m_active_client_ids.count(client_id))`, erase the
id, decrement the live-connection counter. `none` models the assertion
firing. -/
def shutdown_socket (active : Finset Nat) (counter : Int) (id : Nat) :
    Option (Finset Nat × Int) :=
  if id ∈ active then some (active.erase id, counter - 1) else none

/-! ### ClientRegistry as a transition system (claim C2)

The accept path (lines 134-155) schedules id sampling (`get_spare_id`) and
the insertion of the sampled id into `m_active_client_ids` as two separate
steps: the sample happens inside the posted packaged task, the insertion
happens later inside `on_connection_attempt`, each under its own acquisition
of `m_client_id_mutex`. `RegStep` is the alphabet of these registry steps;
`regApply` gives each step the effect the source gives it, including its
precondition (`sample v` can yield `v` only while `v` is absent from the
active set, since `get_spare_id` retries on collision under the lock). -/

/-- One scheduled registry step: a `get_spare_id` sample returning `v`, the
accept-handler insertion of a previously sampled `v`, or the
`shutdown_socket` release of `v`. -/
inductive RegStep where
  | sample (v : Nat)
  | insertId (v : Nat)
  | releaseId (v : Nat)
deriving DecidableEq

/-- Registry state: `active` is `m_active_client_ids`; `held` lists the ids
currently held by sessions (returned by `get_spare_id`, not yet released);
`pending` lists held ids whose insertion step has not yet run. -/
structure RegState where
  active : Finset Nat
  held : List Nat
  pending : List Nat
deriving DecidableEq

/-- The initial registry state: no active ids, no outstanding sessions. -/
def regInit : RegState := { active := ∅, held := [], pending := [] }

/-- Effect of one registry step, with its enabling condition from the
source: `sample v` requires `v ∉ active` (the `do/while` loop in
`get_spare_id` only exits on a non-member, under the lock); `insertId v`
requires a matching pending sample; `releaseId v` requires the session to
hold `v` and requires the `shutdown_socket` assertion `v ∈ active`. -/
def regApply (s : RegState) : RegStep → Option RegState
  | RegStep.sample v =>
      if v ∈ s.active then none
      else some { s with held := v :: s.held, pending := v :: s.pending }
  | RegStep.insertId v =>
      if v ∈ s.pending then
        some { s with active := insert v s.active, pending := s.pending.erase v }
      else none
  | RegStep.releaseId v =>
      if v ∈ s.held ∧ v ∈ s.active then
        some { s with active := s.active.erase v, held := s.held.erase v }
      else none

/-- Run a list of registry steps from a state; `none` when some step is not
enabled. -/
def runReg : RegState → List RegStep → Option RegState
  | s, [] => some s
  | s, st :: tr =>
      match regApply s st with
      | some s2 => runReg s2 tr
      | none => none

/-- A serialized schedule: each allocation performs its sample and its
insertion back-to-back, with no other registry step in between. `expand`
turns such a schedule into the interleaving it induces. -/
inductive AStep where
  | alloc (v : Nat)
  | free (v : Nat)
deriving DecidableEq

/-- Expansion of a serialized schedule into primitive registry steps. -/
def expand : List AStep → List RegStep
  | [] => []
  | AStep.alloc v :: tr => RegStep.sample v :: RegStep.insertId v :: expand tr
  | AStep.free v :: tr => RegStep.releaseId v :: expand tr

/-- Registry invariant maintained by serialized schedules: no insertion is
pending, no session-held id is duplicated, and every held id is recorded
active. -/
def regOk (s : RegState) : Prop :=
  s.pending = [] ∧ s.held.Nodup ∧ ∀ v ∈ s.held, v ∈ s.active

/-! ### Connection Session state machine

One session, from the moment its accept succeeded and its id was inserted
(`on_connection_attempt`, lines 141-160), advances through the pending
asynchronous operation of its current stage. Each completion handler in the
source becomes one case of `sessionStepA`; the actions it performs
(initiating the next asynchronous operation, writing, or posting
`shutdown_socket`) are recorded in the returned action list. -/

/-- Current stage of one session, identified by its pending asynchronous
operation: TLS handshake (`attempt_handshake`), `async_wait` for read
readiness (`read_request`), `async_read` into a buffer of `avail` bytes,
or `async_write` of `buf` (`process_request`, with the eof flag the read
reported). `closed` means `shutdown_socket` ran. -/
inductive Stage where
  | handshaking
  | waitRead
  | reading (avail : Nat)
  | writing (buf : List Byte) (eofSeen : Bool)
  | closed
deriving DecidableEq

/-- Completion event of the pending asynchronous operation: success or
error of the handshake, of the readiness wait, of the read (where success
carries the bytes placed in the buffer and `readEof` carries the prefix
received before end of file), and of the write. -/
inductive SEvent where
  | hsOk
  | hsErr
  | waitOk (avail : Nat)
  | waitErr
  | readOk (data : List Byte)
  | readEof (data : List Byte)
  | readErr
  | writeOk
  | writeErr
deriving DecidableEq

/-- Observable action a completion handler performs: initiate the readiness
wait (`read_request` posting `async_wait`), allocate the buffer and start
`async_read`, issue `async_write` of the given bytes, or post
`shutdown_socket`. -/
inductive SAction where
  | startWait
  | startRead (bufLen : Nat)
  | write (buf : List Byte)
  | close
deriving DecidableEq

/-- The receive buffer allocated at `tcp_server.cxx:197`: length equal to
`lowest_layer().available()` at the moment read readiness fired, pre-filled
with `NULL_BYTE`. -/
def mkReadBuffer (avail : Nat) : List Byte := List.replicate avail NULL_BYTE

/-- Overwrite the prefix of `buf` with the received bytes `d`, as
`async_read` does to the pre-filled buffer. -/
def writePrefix (buf d : List Byte) : List Byte := d ++ buf.drop d.length

/-- Contents of the receive buffer after a read that delivered `d` into a
buffer allocated for `avail` bytes. -/
def fillBuffer (avail : Nat) (d : List Byte) : List Byte :=
  writePrefix (mkReadBuffer avail) d

/-- One step of the session state machine, translated handler by handler
from the source. `on_handshake` (lines 221-230): success increments the
live counter and posts `read_request`; failure posts `shutdown_socket`.
`on_read_wait_over` (lines 193-214): success allocates the buffer and
starts `async_read`; failure posts `shutdown_socket`. `on_read`
(lines 199-207): success or eof posts `process_request` with the whole
buffer and the eof flag; other errors post `shutdown_socket`.
`process_request` (lines 165-189) immediately issues `async_write` of the
whole buffer; `on_write` (lines 171-185): success posts `read_request`
when eof was not seen and `shutdown_socket` when it was; failure posts
`shutdown_socket`. A mismatched event leaves the stage unchanged and is
excluded by `matchesEv`. -/
def sessionStepA : Stage → SEvent → Stage × List SAction
  | Stage.handshaking, SEvent.hsOk => (Stage.waitRead, [SAction.startWait])
  | Stage.handshaking, SEvent.hsErr => (Stage.closed, [SAction.close])
  | Stage.waitRead, SEvent.waitOk avail =>
      (Stage.reading avail, [SAction.startRead avail])
  | Stage.waitRead, SEvent.waitErr => (Stage.closed, [SAction.close])
  | Stage.reading avail, SEvent.readOk d =>
      (Stage.writing (fillBuffer avail d) false,
       [SAction.write (fillBuffer avail d)])
  | Stage.reading avail, SEvent.readEof d =>
      (Stage.writing (fillBuffer avail d) true,
       [SAction.write (fillBuffer avail d)])
  | Stage.reading _, SEvent.readErr => (Stage.closed, [SAction.close])
  | Stage.writing _ false, SEvent.writeOk => (Stage.waitRead, [SAction.startWait])
  | Stage.writing _ true, SEvent.writeOk => (Stage.closed, [SAction.close])
  | Stage.writing _ _, SEvent.writeErr => (Stage.closed, [SAction.close])
  | s, _ => (s, [])

/-- The stage after one completion event. -/
def sessionStep (s : Stage) (e : SEvent) : Stage := (sessionStepA s e).1

/-- Whether an event is a completion of the operation pending at the given
stage. A successful read must fill the buffer (`asio::async_read` completes
without error only once the whole buffer is filled); an eof completion
delivers at most the buffer length. -/
def matchesEv : Stage → SEvent → Bool
  | Stage.handshaking, SEvent.hsOk => true
  | Stage.handshaking, SEvent.hsErr => true
  | Stage.waitRead, SEvent.waitOk _ => true
  | Stage.waitRead, SEvent.waitErr => true
  | Stage.reading avail, SEvent.readOk d => d.length == avail
  | Stage.reading avail, SEvent.readEof d => decide (d.length ≤ avail)
  | Stage.reading _, SEvent.readErr => true
  | Stage.writing _ _, SEvent.writeOk => true
  | Stage.writing _ _, SEvent.writeErr => true
  | _, _ => false

/-- Operational-error events: each error branch of a completion handler.
End of file is not an error (it is the normal end-of-stream signal). -/
def isError : SEvent → Bool
  | SEvent.hsErr => true
  | SEvent.waitErr => true
  | SEvent.readErr => true
  | SEvent.writeErr => true
  | _ => false

/-- A well-formed session trace: every event completes the operation that
is pending at the stage where it is consumed. -/
def wfTrace : Stage → List SEvent → Bool
  | _, [] => true
  | s, e :: es => matchesEv s e && wfTrace (sessionStep s e) es

/-- The stage reached after consuming a trace. -/
def runStage : Stage → List SEvent → Stage
  | s, [] => s
  | s, e :: es => runStage (sessionStep s e) es

/-- All actions the session performs along a trace, in order. -/
def actionsRun : Stage → List SEvent → List SAction
  | _, [] => []
  | s, e :: es => (sessionStepA s e).2 ++ actionsRun (sessionStep s e) es

/-- Number of transitions into `closed` along a trace, that is, the number
of times `shutdown_socket` is posted for this session. -/
def closedEntries : Stage → List SEvent → Nat
  | _, [] => 0
  | s, e :: es =>
      (if s ≠ Stage.closed ∧ sessionStep s e = Stage.closed then 1 else 0)
        + closedEntries (sessionStep s e) es

/-- Change of `m_active_connections` caused by one session transition:
`++m_active_connections` on handshake success (line 224) and
`--m_active_connections` inside `shutdown_socket` (line 119), which runs on
every entry into `closed`. -/
def counterDelta (s : Stage) (e : SEvent) : Int :=
  (if s = Stage.handshaking ∧ e = SEvent.hsOk then 1 else 0)
    + (if s ≠ Stage.closed ∧ sessionStep s e = Stage.closed then -1 else 0)

/-- Value of `m_active_connections` after a trace of one session, starting
from the value `c`. -/
def runCounter : Stage → Int → List SEvent → Int
  | _, c, [] => c
  | s, c, e :: es => runCounter (sessionStep s e) (c + counterDelta s e) es

/-- Number of counter increments along a trace (line 224). -/
def incCount : Stage → List SEvent → Nat
  | _, [] => 0
  | s, e :: es =>
      (if s = Stage.handshaking ∧ e = SEvent.hsOk then 1 else 0)
        + incCount (sessionStep s e) es

/-- Number of counter decrements along a trace (line 119). -/
def decCount : Stage → List SEvent → Nat
  | _, [] => 0
  | s, e :: es =>
      (if s ≠ Stage.closed ∧ sessionStep s e = Stage.closed then 1 else 0)
        + decCount (sessionStep s e) es

/-! ### Server accept loop and admission control (`listen`, lines 124-163;
`connection_timeout`, lines 91-107) -/

/-- Observable action of one accept-loop or cooldown step: `armAcceptor` is
`m_acceptor.listen()`, `cancelAcceptor` is `m_acceptor.cancel()`,
`armTimer` sets a steady timer for the given number of seconds,
`postIdTask` posts the `get_spare_id` packaged task, `initAccept` is
`async_accept`, `postTimeout` posts `connection_timeout`, `postListen`
posts `listen`. -/
inductive LoopAction where
  | armAcceptor
  | cancelAcceptor
  | armTimer (seconds : Nat)
  | postIdTask
  | initAccept
  | postTimeout
  | postListen
deriving DecidableEq

/-- `tcp_server::listen` (lines 124-163): re-arm the acceptor, then either
take the cooldown branch when `m_active_connections > MAX_CONNECTIONS`
(posting `connection_timeout` and returning without accepting), or post the
id-sampling task and initiate `async_accept`. The ceiling
`MAX_CONNECTIONS` and the current counter value are parameters, since the
constant lives in a project header outside `src/`. -/
def tcp_server.listen (maxConnections activeConnections : Int) : List LoopAction :=
  LoopAction.armAcceptor ::
    (if activeConnections > maxConnections then [LoopAction.postTimeout]
     else [LoopAction.postIdTask, LoopAction.initAccept])

/-- `tcp_server::connection_timeout` (lines 91-107): cancel the acceptor
and arm the cooldown timer for `TIMEOUT_SECONDS` (a parameter here, the
constant lives in a project header outside `src/`). -/
def connection_timeout (timeoutSeconds : Nat) : List LoopAction :=
  [LoopAction.cancelAcceptor, LoopAction.armTimer timeoutSeconds]

/-- The cooldown-timer completion handler (lines 99-106): on success, post
`listen` again; on error, only log. -/
def timeout_timer_handler (hasError : Bool) : List LoopAction :=
  if hasError then [] else [LoopAction.postListen]

/-! ### Server start and shutdown (`start`, lines 25-53; `shutdown`,
lines 55-74) -/

/-- Action performed during `tcp_server::shutdown`. -/
inductive SrvAction where
  | resetGuard
  | cancelAcceptor
  | closeAcceptor
  | stopContext
  | joinThread
deriving DecidableEq

/-- Server orchestration state: `running` is `m_server_running`,
`guardActive` tells whether `m_executor_guard` still holds its work guard,
`acceptorOpen` whether the acceptor is open, `ioStopped` whether
`m_io_context` was stopped, and `threads` records, for each thread object
in `m_thread_pool`, whether it is currently joinable. -/
structure ServerState where
  running : Bool
  guardActive : Bool
  acceptorOpen : Bool
  ioStopped : Bool
  threads : List Bool
deriving DecidableEq

/-- A freshly constructed server: not running, work guard made by the
constructor, acceptor not yet opened, empty thread pool. -/
def serverInit : ServerState :=
  { running := false, guardActive := true, acceptorOpen := false,
    ioStopped := false, threads := [] }

/-- `tcp_server::shutdown` (lines 55-74): early return when
`m_server_running` is already false; otherwise mark not running, reset the
work guard, cancel and close the acceptor, stop the io context and join
every pooled thread, each join guarded by `assert(thread.joinable())`
(modelled as `none` when some pooled thread is not joinable). Joined
threads stay in the pool and are no longer joinable. -/
def shutdown (s : ServerState) : Option (ServerState × List SrvAction) :=
  if s.running = false then some (s, [])
  else if s.threads.all (fun j => j) then
    some ({ running := false, guardActive := false, acceptorOpen := false,
            ioStopped := true, threads := s.threads.map (fun _ => false) },
          [SrvAction.resetGuard, SrvAction.cancelAcceptor,
           SrvAction.closeAcceptor, SrvAction.stopContext]
            ++ s.threads.map (fun _ => SrvAction.joinThread))
  else none

/-- `tcp_server::start` (lines 25-53): early return when already running;
otherwise mark running and populate the worker pool: when the pool is
empty, spawn `threadCount` fresh (joinable) threads; when it is non-empty
(the restart path), each slot passes `assert(thread.joinable())` and is
reassigned a fresh thread — `none` models that assertion firing. The
successful path then configures the ssl context and acceptor and posts the
first `listen`. -/
def start (threadCount : Nat) (s : ServerState) : Option ServerState :=
  if s.running then some s
  else if s.threads.isEmpty then
    some { s with running := true, acceptorOpen := true,
                  threads := List.replicate threadCount true }
  else if s.threads.all (fun j => j) then
    some { s with running := true, acceptorOpen := true,
                  threads := s.threads.map (fun _ => true) }
  else none

/-! ## Theorems -/

theorem regOk_expand_run : ∀ (atr : List AStep) (s s2 : RegState),
    regOk s → runReg s (expand atr) = some s2 → regOk s2 := by
  intro atr
  induction atr with
  | nil =>
      intro s s2 hok hrun
      simp only [expand, runReg, Option.some.injEq] at hrun
      exact hrun ▸ hok
  | cons a tr ih =>
      intro s s2 hok hrun
      obtain ⟨hpend, hnd, hsub⟩ := hok
      cases a with
      | alloc v =>
          simp only [expand, runReg, regApply] at hrun
          by_cases hv : v ∈ s.active
          · simp [hv] at hrun
          · simp only [if_neg hv, List.mem_cons_self, if_true,
              List.erase_cons_head] at hrun
            refine ih _ s2 ?_ hrun
            refine ⟨hpend, ?_, ?_⟩
            · exact List.nodup_cons.mpr ⟨fun hmem => hv (hsub v hmem), hnd⟩
            · intro x hx
              rcases List.mem_cons.mp hx with hx | hx
              · exact hx ▸ Finset.mem_insert_self v s.active
              · exact Finset.mem_insert_of_mem (hsub x hx)
      | free v =>
          simp only [expand, runReg, regApply] at hrun
          by_cases hv : v ∈ s.held ∧ v ∈ s.active
          · rw [if_pos hv] at hrun
            refine ih _ s2 ?_ hrun
            refine ⟨hpend, hnd.erase v, ?_⟩
            intro x hx
            have hxv : x ≠ v ∧ x ∈ s.held := (hnd.mem_erase_iff).mp hx
            exact Finset.mem_erase.mpr ⟨hxv.1, hsub x hxv.2⟩
          · simp [hv] at hrun

/-- Helper: no event completes an operation at `closed` (the session has no
pending operation after `shutdown_socket`). -/
theorem matchesEv_closed (e : SEvent) : matchesEv Stage.closed e = false := by
  cases e <;> rfl

/-- Helper: a well-formed trace from `closed` is empty. -/
theorem wfTrace_closed {es : List SEvent} (h : wfTrace Stage.closed es = true) :
    es = [] := by
  cases es with
  | nil => rfl
  | cons e es => simp [wfTrace, matchesEv_closed] at h

/-- Helper: from every non-closed stage, an operational-error completion
transitions directly to `closed` — each error branch in the source posts
`shutdown_socket` and nothing else. -/
theorem error_step_closed (s : Stage) (e : SEvent) (hs : s ≠ Stage.closed)
    (hm : matchesEv s e = true) (he : isError e = true) :
    sessionStep s e = Stage.closed := by
  cases s with
  | handshaking =>
      cases e <;> simp_all [matchesEv, isError, sessionStep, sessionStepA]
  | waitRead =>
      cases e <;> simp_all [matchesEv, isError, sessionStep, sessionStepA]
  | reading avail =>
      cases e <;> simp_all [matchesEv, isError, sessionStep, sessionStepA]
  | writing buf eofSeen =>
      cases eofSeen <;> cases e <;>
        simp_all [matchesEv, isError, sessionStep, sessionStepA]
  | closed => exact absurd rfl hs

/-- Helper: a well-formed trace containing an operational error ends with
the session closed. -/
theorem wf_error_runs_closed : ∀ (es : List SEvent) (s : Stage),
    wfTrace s es = true → (∃ e ∈ es, isError e = true) →
    runStage s es = Stage.closed := by
  intro es
  induction es with
  | nil =>
      intro s _ hex
      rcases hex with ⟨e, he, _⟩
      exact absurd he (List.not_mem_nil e)
  | cons e es ih =>
      intro s hwf hex
      have hand : matchesEv s e = true ∧ wfTrace (sessionStep s e) es = true := by
        simpa [wfTrace] using hwf
      have hm : matchesEv s e = true := hand.1
      have hwf2 : wfTrace (sessionStep s e) es = true := hand.2
      by_cases herr : isError e = true
      · have hs : s ≠ Stage.closed := by
          intro h
          rw [h, matchesEv_closed] at hm
          exact Bool.false_ne_true hm
        have hc := error_step_closed s e hs hm herr
        have hnil : es = [] := wfTrace_closed (hc ▸ hwf2)
        simp [runStage, hnil, hc]
      · rcases hex with ⟨e2, he2, herr2⟩
        have hmem : e2 ∈ es := by
          rcases List.mem_cons.mp he2 with h | h
          · exact absurd (h ▸ herr2) herr
          · exact h
        exact ih (sessionStep s e) hwf2 ⟨e2, hmem, herr2⟩

/-- Helper: along a well-formed trace, `shutdown_socket` is posted at most
once — `closed` has no pending operation, so a well-formed trace cannot
continue past it. -/
theorem closedEntries_le_one : ∀ (es : List SEvent) (s : Stage),
    wfTrace s es = true → closedEntries s es ≤ 1 := by
  intro es
  induction es with
  | nil => intro s _; simp [closedEntries]
  | cons e es ih =>
      intro s hwf
      have hand : matchesEv s e = true ∧ wfTrace (sessionStep s e) es = true := by
        simpa [wfTrace] using hwf
      have hwf2 : wfTrace (sessionStep s e) es = true := hand.2
      by_cases hc : sessionStep s e = Stage.closed
      · have hnil : es = [] := wfTrace_closed (hc ▸ hwf2)
        subst hnil
        simp only [closedEntries, Nat.add_zero]
        split
        · exact Nat.le_refl 1
        · exact Nat.zero_le 1
      · have h0 : (if s ≠ Stage.closed ∧ sessionStep s e = Stage.closed
            then 1 else 0) = 0 := by simp [hc]
        simp only [closedEntries, h0, Nat.zero_add]
        exact ih (sessionStep s e) hwf2

/-- Helper: a trace that ends closed, started from a non-closed stage,
posts `shutdown_socket` at least once. -/
theorem closedEntries_pos : ∀ (es : List SEvent) (s : Stage),
    s ≠ Stage.closed → runStage s es = Stage.closed →
    1 ≤ closedEntries s es := by
  intro es
  induction es with
  | nil => intro s hs hrun; exact absurd hrun hs
  | cons e es ih =>
      intro s hs hrun
      have hrun2 : runStage (sessionStep s e) es = Stage.closed := by
        simpa [runStage] using hrun
      by_cases hc : sessionStep s e = Stage.closed
      · have h1 : (if s ≠ Stage.closed ∧ sessionStep s e = Stage.closed
            then 1 else 0) = 1 := by simp [hs, hc]
        simp only [closedEntries, h1]
        exact Nat.le_add_right 1 _
      · have h0 : (if s ≠ Stage.closed ∧ sessionStep s e = Stage.closed
            then 1 else 0) = 0 := by simp [hc]
        simp only [closedEntries, h0, Nat.zero_add]
        exact ih (sessionStep s e) hc hrun2

/-- Helper: a read that exactly fills the buffer leaves it equal to the
received bytes. -/
theorem fillBuffer_of_length_eq {avail : Nat} {d : List Byte}
    (h : d.length = avail) : fillBuffer avail d = d := by
  have hdrop : (List.replicate avail NULL_BYTE).drop d.length = [] :=
    List.drop_eq_nil_of_le (by simp [h])
  simp [fillBuffer, writePrefix, mkReadBuffer, hdrop]

/-- Helper: dropping from a replicated list leaves a replicated list. -/
theorem drop_replicate (n m : Nat) (x : Byte) :
    (List.replicate m x).drop n = List.replicate (m - n) x := by
  induction n generalizing m with
  | zero => simp
  | succ n ih =>
      cases m with
      | zero => simp
      | succ m => simp [List.replicate_succ, ih]

/-- Claim C1: the claim states that the live-connection counter is always
nonnegative, that decrements never exceed increments, and that a close
decrements only after a matching successful-handshake increment. The code
violates this: the handshake-failure branch (line 228) posts
`shutdown_socket`, which decrements unconditionally (line 119). This
theorem evaluates the embedded session machine on the failing input — one
accepted session whose handshake fails — showing a well-formed run with
counter value -1, zero increments and one decrement. -/
theorem handshake_failure_decrements_counter :
    wfTrace Stage.handshaking [SEvent.hsErr] = true
    ∧ runCounter Stage.handshaking 0 [SEvent.hsErr] = -1
    ∧ runCounter Stage.handshaking 0 [SEvent.hsErr] < 0
    ∧ incCount Stage.handshaking [SEvent.hsErr] = 0
    ∧ decCount Stage.handshaking [SEvent.hsErr] = 1 := by decide

/-- Claim C2, counterexample: the claim — every interleaving of sampling,
insertion and release keeps the outstanding (allocated-but-not-released)
ids duplicate-free — is false. Two `sample 5` steps are both enabled from
the empty registry (each checks the active set under the lock, and neither
id has been inserted yet), after which two live sessions hold id 5. -/
theorem duplicate_id_interleaving :
    ¬ (∀ (tr : List RegStep) (s2 : RegState),
        runReg regInit tr = some s2 → s2.held.Nodup) := by
  intro h
  have h2 := h [RegStep.sample 5, RegStep.sample 5]
      { active := ∅, held := [5, 5], pending := [5, 5] } (by decide)
  exact absurd h2 (by decide)

/-- Claim C2, amended: uniqueness of outstanding ids holds for every
serialized schedule, in which each allocation performs its sampling and its
insertion back-to-back with no other registry step in between; in full
generality the separation of collision check from insertion lets two
concurrent allocations hold the same id. -/
theorem serialized_allocation_unique : ∀ (atr : List AStep) (s2 : RegState),
    runReg regInit (expand atr) = some s2 → s2.held.Nodup := by
  intro atr s2 hrun
  have hinit : regOk regInit := ⟨rfl, List.nodup_nil, by simp [regInit]⟩
  exact (regOk_expand_run atr regInit s2 hinit hrun).2.1

/-- Witness for the amended claim C2: one serialized allocation of id 5
runs to a state whose outstanding ids are duplicate-free. -/
theorem serialized_allocation_unique_witness :
    runReg regInit (expand [AStep.alloc 5])
      = some { active := {5}, held := [5], pending := [] }
    ∧ ({ active := {5}, held := [5], pending := [] } : RegState).held.Nodup :=
  ⟨by decide,
   serialized_allocation_unique [AStep.alloc 5]
     { active := {5}, held := [5], pending := [] } (by decide)⟩

/-- Claim C3: along every well-formed session trace, `shutdown_socket` is
posted at most once; if any stage completes with an operational error the
session ends closed having posted `shutdown_socket` exactly once; and every
operational-error completion at any non-closed stage transitions directly
to closed — no retry of handshake, read-wait, read or write. (A failed
accept creates no session at all: `on_connection_attempt`, line 158, only
logs.) -/
theorem session_reaches_closing : ∀ (es : List SEvent),
    wfTrace Stage.handshaking es = true →
    closedEntries Stage.handshaking es ≤ 1
    ∧ ((∃ e ∈ es, isError e = true) →
        runStage Stage.handshaking es = Stage.closed
        ∧ closedEntries Stage.handshaking es = 1)
    ∧ (∀ (s : Stage) (e : SEvent), s ≠ Stage.closed → matchesEv s e = true →
        isError e = true → sessionStep s e = Stage.closed) := by
  intro es hwf
  refine ⟨closedEntries_le_one es Stage.handshaking hwf, ?_, error_step_closed⟩
  intro hex
  have hrun := wf_error_runs_closed es Stage.handshaking hwf hex
  exact ⟨hrun, Nat.le_antisymm (closedEntries_le_one es _ hwf)
      (closedEntries_pos es _ (by decide) hrun)⟩

/-- Witness for claim C3: a session whose handshake fails closes, with
exactly one `shutdown_socket`. -/
theorem session_reaches_closing_witness :
    runStage Stage.handshaking [SEvent.hsErr] = Stage.closed
    ∧ closedEntries Stage.handshaking [SEvent.hsErr] = 1 :=
  (session_reaches_closing [SEvent.hsErr] (by decide)).2.1
    ⟨SEvent.hsErr, List.mem_singleton.mpr rfl, rfl⟩

/-- Claim C4: when the live-connection counter exceeds the ceiling, the
accept-loop iteration initiates no accept and hands off to the cooldown
path, which cancels the acceptor and arms the timer for the cooldown
duration; successful timer expiry posts `listen` again, whose first action
re-arms the acceptor; and whenever the counter is at or below the ceiling
the iteration initiates an accept. -/
theorem admission_backpressure : ∀ (maxC c : Int) (t : Nat),
    (c > maxC →
        tcp_server.listen maxC c = [LoopAction.armAcceptor, LoopAction.postTimeout]
        ∧ LoopAction.initAccept ∉ tcp_server.listen maxC c
        ∧ connection_timeout t = [LoopAction.cancelAcceptor, LoopAction.armTimer t]
        ∧ timeout_timer_handler false = [LoopAction.postListen]
        ∧ (tcp_server.listen maxC c).head? = some LoopAction.armAcceptor)
    ∧ (c ≤ maxC →
        LoopAction.initAccept ∈ tcp_server.listen maxC c
        ∧ (tcp_server.listen maxC c).head? = some LoopAction.armAcceptor) := by
  intro maxC c t
  constructor
  · intro h
    have hif : tcp_server.listen maxC c = [LoopAction.armAcceptor, LoopAction.postTimeout] := by
      simp [tcp_server.listen, h]
    refine ⟨hif, ?_, rfl, rfl, by rw [hif]; rfl⟩
    rw [hif]
    decide
  · intro h
    have hif : tcp_server.listen maxC c
        = [LoopAction.armAcceptor, LoopAction.postIdTask, LoopAction.initAccept] := by
      simp [tcp_server.listen, not_lt.mpr h]
    rw [hif]
    exact ⟨by decide, rfl⟩

/-- Witness for claim C4 at ceiling 2: a counter of 3 yields the cooldown
branch with no accept, a counter of 1 initiates an accept. -/
theorem admission_backpressure_witness :
    tcp_server.listen 2 3 = [LoopAction.armAcceptor, LoopAction.postTimeout]
    ∧ LoopAction.initAccept ∈ tcp_server.listen 2 1 :=
  ⟨((admission_backpressure 2 3 5).1 (by decide)).1,
   ((admission_backpressure 2 1 5).2 (by decide)).1⟩

/-- Claim C5, counterexample: the claim — the server writes back exactly
the bytes it read — fails when a read completes at end of file before
filling the buffer: with 4 bytes reported available and only the two bytes
112, 105 received before eof, the session writes the whole padded buffer
112, 105, 0, 0, which is not the received sequence. -/
theorem echo_eof_padding_counterexample :
    ¬ (∀ (avail : Nat) (d : List Byte),
        matchesEv (Stage.reading avail) (SEvent.readEof d) = true →
        (sessionStepA (Stage.reading avail) (SEvent.readEof d)).2
          = [SAction.write d]) := by
  intro h
  have h2 := h 4 [112, 105] (by decide)
  exact absurd h2 (by decide)

/-- Claim C5, amended: for every read that completes without end of file
(which fills the allocated buffer exactly), the session immediately issues
a write of exactly the bytes it read, before any further action — in
particular before the next read of the session is initiated, which happens
only upon completion of that write; a read that ends at end of file echoes
the NUL-padded buffer and closes instead of reading again. -/
theorem echo_write_before_next_read : ∀ (avail : Nat) (d : List Byte)
    (es : List SEvent), d.length = avail →
    wfTrace (Stage.reading avail) (SEvent.readOk d :: es) = true →
    actionsRun (Stage.reading avail) (SEvent.readOk d :: es)
        = SAction.write d :: actionsRun (Stage.writing d false) es
    ∧ sessionStepA (Stage.writing d false) SEvent.writeOk
        = (Stage.waitRead, [SAction.startWait])
    ∧ (∀ e : SEvent, matchesEv (Stage.writing d false) e = true →
        e = SEvent.writeOk ∨ e = SEvent.writeErr) := by
  intro avail d es h _
  have hf : fillBuffer avail d = d := fillBuffer_of_length_eq h
  refine ⟨?_, rfl, ?_⟩
  · simp [actionsRun, sessionStepA, sessionStep, hf]
  · intro e hm
    cases e <;> simp_all [matchesEv]

/-- Witness for the amended claim C5: an established session that reads the
four bytes of "ping" writes exactly those bytes back as its next action. -/
theorem echo_write_before_next_read_witness :
    actionsRun (Stage.reading 4) [SEvent.readOk [112, 105, 110, 103]]
      = SAction.write [112, 105, 110, 103]
        :: actionsRun (Stage.writing [112, 105, 110, 103] false) [] :=
  (echo_write_before_next_read 4 [112, 105, 110, 103] [] rfl (by decide)).1

/-- Claim C6: whenever some candidate in the draw stream avoids the active
set, `get_spare_id` returns a value outside the active set (which cannot
change, since the whole loop runs under the registry lock, modelled by the
set being one fixed value throughout), it resamples exactly while
candidates collide (every discarded candidate was a member), and the result
is one of the 64-bit candidates drawn. -/
theorem get_spare_id_fresh : ∀ (cands : List Nat) (active : Finset Nat)
    (dflt : Nat), (∃ c ∈ cands, c ∉ active) →
    get_spare_id cands active dflt ∉ active
    ∧ (∃ pre post, cands = pre ++ get_spare_id cands active dflt :: post
        ∧ ∀ c ∈ pre, c ∈ active)
    ∧ ((∀ c ∈ cands, c < 2 ^ 64) → get_spare_id cands active dflt < 2 ^ 64) := by
  intro cands
  induction cands with
  | nil =>
      intro active dflt hex
      rcases hex with ⟨c, hc, _⟩
      exact absurd hc (List.not_mem_nil c)
  | cons c rest ih =>
      intro active dflt hex
      by_cases hc : c ∈ active
      · have hex2 : ∃ x ∈ rest, x ∉ active := by
          rcases hex with ⟨x, hx, hxa⟩
          rcases List.mem_cons.mp hx with h | h
          · exact absurd (h ▸ hc) hxa
          · exact ⟨x, h, hxa⟩
        obtain ⟨h1, ⟨pre, post, hsplit, hpre⟩, h3⟩ := ih active dflt hex2
        have hg : get_spare_id (c :: rest) active dflt
            = get_spare_id rest active dflt := by
          simp [get_spare_id, hc]
        refine ⟨by rw [hg]; exact h1, ⟨c :: pre, post, ?_, ?_⟩, ?_⟩
        · rw [hg, List.cons_append, ← hsplit]
        · intro x hx
          rcases List.mem_cons.mp hx with h | h
          · exact h ▸ hc
          · exact hpre x h
        · intro hall
          rw [hg]
          exact h3 (fun x hx => hall x (List.mem_cons_of_mem c hx))
      · have hg : get_spare_id (c :: rest) active dflt = c := by
          simp [get_spare_id, hc]
        refine ⟨by rw [hg]; exact hc, ⟨[], rest, by rw [hg]; rfl, ?_⟩, ?_⟩
        · intro x hx
          exact absurd hx (List.not_mem_nil x)
        · intro hall
          rw [hg]
          exact hall c (List.mem_cons_self c rest)

/-- Witness for claim C6: with active set containing 3 and draws 3 then 7,
the loop discards 3 and returns 7, which is not active. -/
theorem get_spare_id_fresh_witness :
    get_spare_id [3, 7] {3} 0 ∉ ({3} : Finset Nat)
    ∧ get_spare_id [3, 7] {3} 0 = 7 :=
  ⟨(get_spare_id_fresh [3, 7] {3} 0 ⟨7, by decide, by decide⟩).1, by decide⟩

/-- Claim C7: releasing an id that is not a member of the active set makes
the `shutdown_socket` assertion fire (modelled as `none`) rather than being
silently ignored, and releasing a member id removes exactly that id. -/
theorem release_nonmember_fails : ∀ (active : Finset Nat) (counter : Int)
    (id : Nat),
    (id ∉ active → shutdown_socket active counter id = none)
    ∧ (id ∈ active →
        shutdown_socket active counter id = some (active.erase id, counter - 1)
        ∧ id ∉ active.erase id) := by
  intro active counter id
  constructor
  · intro h
    simp [shutdown_socket, h]
  · intro h
    exact ⟨by simp [shutdown_socket, h], Finset.not_mem_erase id active⟩

/-- Witness for claim C7: releasing 3 from the set containing 1 and 2
signals the assertion; releasing member 1 erases it and decrements. -/
theorem release_nonmember_fails_witness :
    shutdown_socket {1, 2} 0 3 = none
    ∧ shutdown_socket {1, 2} 0 1 = some (({1, 2} : Finset Nat).erase 1, -1) :=
  ⟨(release_nonmember_fails {1, 2} 0 3).1 (by decide),
   ((release_nonmember_fails {1, 2} 0 1).2 (by decide)).1⟩

/-- Claim C8: `shutdown` on a server that is not running returns
immediately, changing no state and performing no join and no close; and any
successful `shutdown` leaves the server not running, so a second
consecutive call (including the call made by the destructor) is such a
no-op. -/
theorem shutdown_idempotent : ∀ s : ServerState,
    (s.running = false → shutdown s = some (s, []))
    ∧ (∀ (s2 : ServerState) (acts : List SrvAction),
        shutdown s = some (s2, acts) → shutdown s2 = some (s2, [])) := by
  intro s
  constructor
  · intro h
    simp [shutdown, h]
  · intro s2 acts h
    by_cases hr : s.running = false
    · have h0 : shutdown s = some (s, []) := by simp [shutdown, hr]
      rw [h0] at h
      injection h with h1
      injection h1 with ha hb
      rw [← ha]
      simp [shutdown, hr]
    · have hr2 : s.running = true := by
        cases hb : s.running
        · exact absurd hb hr
        · rfl
      by_cases hj : s.threads.all (fun j => j) = true
      · have h0 : shutdown s
            = some ({ running := false, guardActive := false,
                      acceptorOpen := false, ioStopped := true,
                      threads := s.threads.map (fun _ => false) },
                    [SrvAction.resetGuard, SrvAction.cancelAcceptor,
                     SrvAction.closeAcceptor, SrvAction.stopContext]
                      ++ s.threads.map (fun _ => SrvAction.joinThread)) := by
          simp [shutdown, hr2, hj]
        rw [h0] at h
        injection h with h1
        injection h1 with ha hb
        rw [← ha]
        simp [shutdown]
      · have h0 : shutdown s = none := by simp [shutdown, hr2, hj]
        rw [h0] at h
        exact Option.noConfusion h

/-- Witness for claim C8: shutting down a never-started server is a no-op,
and a second shutdown after shutting down a running one-thread server is a
no-op. -/
theorem shutdown_idempotent_witness :
    shutdown serverInit = some (serverInit, [])
    ∧ shutdown { running := false, guardActive := false, acceptorOpen := false,
                 ioStopped := true, threads := [false] }
        = some ({ running := false, guardActive := false, acceptorOpen := false,
                  ioStopped := true, threads := [false] }, []) :=
  ⟨(shutdown_idempotent serverInit).1 rfl,
   (shutdown_idempotent (ServerState.mk true true true false [true])).2
     (ServerState.mk false false false true [false])
     [SrvAction.resetGuard, SrvAction.cancelAcceptor, SrvAction.closeAcceptor,
      SrvAction.stopContext, SrvAction.joinThread]
     (by decide)⟩

/-- Claim C9: the claim states that every thread in a non-empty pool at
`start()` entry is joinable, so the restart-path assertion
`assert(thread.joinable())` holds and the server can be restarted after
shutdown. The code contradicts its own assertion: this theorem evaluates
the embedded model on the failing run start-shutdown-start of a one-thread
server — shutdown joins the pooled thread and leaves it (no longer
joinable) in the pool, so the second `start` reaches the restart path with
a non-empty pool whose only thread is not joinable, and the assertion
fires. -/
theorem restart_assertion_fails :
    start 1 serverInit
        = some { running := true, guardActive := true, acceptorOpen := true,
                 ioStopped := false, threads := [true] }
    ∧ shutdown { running := true, guardActive := true, acceptorOpen := true,
                 ioStopped := false, threads := [true] }
        = some ({ running := false, guardActive := false, acceptorOpen := false,
                  ioStopped := true, threads := [false] },
                [SrvAction.resetGuard, SrvAction.cancelAcceptor,
                 SrvAction.closeAcceptor, SrvAction.stopContext,
                 SrvAction.joinThread])
    ∧ ({ running := false, guardActive := false, acceptorOpen := false,
         ioStopped := true, threads := [false] } : ServerState).threads ≠ []
    ∧ ({ running := false, guardActive := false, acceptorOpen := false,
         ioStopped := true,
         threads := [false] } : ServerState).threads.all (fun j => j) = false
    ∧ start 1 { running := false, guardActive := false, acceptorOpen := false,
                ioStopped := true, threads := [false] } = none := by decide

/-- Claim C10: the receive buffer is allocated with length equal to the
bytes reported available at read readiness, pre-filled with NUL bytes; a
read that delivered the prefix `d` (including an end-of-file completion
that delivered fewer bytes than the buffer holds) leaves the buffer equal
to `d` padded with NULs to the available count, and the session echoes that
entire buffer, so the reply length equals the available count. -/
theorem read_buffer_padding : ∀ (avail : Nat) (d : List Byte),
    d.length ≤ avail →
    mkReadBuffer avail = List.replicate avail NULL_BYTE
    ∧ (mkReadBuffer avail).length = avail
    ∧ fillBuffer avail d = d ++ List.replicate (avail - d.length) NULL_BYTE
    ∧ (fillBuffer avail d).length = avail
    ∧ sessionStepA (Stage.reading avail) (SEvent.readEof d)
        = (Stage.writing (fillBuffer avail d) true,
           [SAction.write (fillBuffer avail d)]) := by
  intro avail d h
  have hf : fillBuffer avail d
      = d ++ List.replicate (avail - d.length) NULL_BYTE := by
    simp [fillBuffer, writePrefix, mkReadBuffer, drop_replicate]
  refine ⟨rfl, by simp [mkReadBuffer], hf, ?_, rfl⟩
  rw [hf]
  simp [Nat.add_sub_cancel' h]

/-- Witness for claim C10: four bytes available, two bytes 112, 105
received before end of file — the echoed buffer is 112, 105, 0, 0, of
length four. -/
theorem read_buffer_padding_witness :
    fillBuffer 4 [112, 105] = [112, 105] ++ List.replicate 2 NULL_BYTE
    ∧ (fillBuffer 4 [112, 105]).length = 4
    ∧ fillBuffer 4 [112, 105] = [112, 105, 0, 0] :=
  ⟨(read_buffer_padding 4 [112, 105] (by decide)).2.2.1,
   (read_buffer_padding 4 [112, 105] (by decide)).2.2.2.1,
   by decide⟩
